import Mathlib

/-!
# Verification of the agent-sdk runtime specification

Shallow embedding of the parts of the agent-sdk repository that the
verified claims are about:

* the GraySwan security analyzer (`openhands/sdk/security/grayswan/analyzer.py`),
* the critic mixin's iterative-refinement check (`openhands/sdk/agent/critic_mixin.py`),
* the system-prompt event's LLM-message conversion
  (`openhands/sdk/event/llm_convertible/system.py`),
* the LLM registry (`openhands/sdk/llm/llm_registry.py`),
* the PS1 terminal-transcript metadata extractor, the remote-workspace
  polling client, the MCP schema renderer and the conversation-state autosave
  hook (these four are modelled from the specification, since their defining
  modules are not part of the sources; only their tests are).

Python dicts are embedded as ordered association lists, floats as rationals
(only order comparisons occur), object identity as natural-number ids, and
exceptions as `Except` / explicit error fields.
-/

/-- Python dict read with default: `m.get(k, d)`. -/
def dictGetD {α : Type} (m : List (String × α)) (k : String) (d : α) : α :=
  match m.lookup k with
  | some v => v
  | none => d

/-- Python dict update `{**m, k: v}`: an existing key keeps its position and
gets the new value, a new key is appended at the end. -/
def dictInsert {α : Type} (m : List (String × α)) (k : String) (v : α) :
    List (String × α) :=
  if (m.lookup k).isSome then
    m.map (fun p => if p.1 = k then (k, v) else p)
  else
    m ++ [(k, v)]

namespace GraySwan

/-- `openhands.sdk.security.risk.SecurityRisk` (the four levels used by the
analyzer). -/
inductive SecurityRisk
  | LOW
  | MEDIUM
  | HIGH
  | UNKNOWN
deriving DecidableEq, Repr

/-- The two threshold fields of `GraySwanAnalyzer` (floats embedded as `ℚ`). -/
structure GraySwanConfig where
  low_threshold : ℚ
  medium_threshold : ℚ
deriving DecidableEq, Repr

/-- `GraySwanAnalyzer.validate_thresholds` (a pydantic `model_validator` run at
construction): raises `ValueError` when `low_threshold >= medium_threshold`. -/
def validate_thresholds (c : GraySwanConfig) : Except String GraySwanConfig :=
  if c.low_threshold ≥ c.medium_threshold then
    Except.error "low_threshold must be less than medium_threshold"
  else
    Except.ok c

/-- `GraySwanAnalyzer._map_violation_to_risk`. -/
def map_violation_to_risk (c : GraySwanConfig) (violation_score : ℚ) :
    SecurityRisk :=
  if violation_score ≤ c.low_threshold then SecurityRisk.LOW
  else if violation_score ≤ c.medium_threshold then SecurityRisk.MEDIUM
  else SecurityRisk.HIGH

/-- Outcome of parsing the HTTP response body in `_call_grayswan_api`:
either `response.json()` raises `json.JSONDecodeError`, or it yields a dict
with an optional `violation` score and a truthy-or-not `ipi` flag. -/
inductive BodyParse
  | invalidJson
  | json (violation : Option ℚ) (ipi : Bool)
deriving DecidableEq, Repr

/-- Outcome of `client.post` in `_call_grayswan_api`: a timeout
(`httpx.TimeoutException`), any other raised exception, or a response with a
status code and a body. -/
inductive HttpResult
  | transportTimeout
  | transportException
  | response (status : Nat) (body : BodyParse)
deriving DecidableEq, Repr

/-- `GraySwanAnalyzer._call_grayswan_api`, with the network interaction
reified as an `HttpResult` argument.  Every branch of the Python function
returns a `SecurityRisk` (exceptions are caught inside), which the embedding
reflects by being a total function into `SecurityRisk`. -/
def call_grayswan_api (c : GraySwanConfig) (hasApiKey : Bool)
    (r : HttpResult) : SecurityRisk :=
  if !hasApiKey then SecurityRisk.UNKNOWN
  else
    match r with
    | HttpResult.transportTimeout => SecurityRisk.UNKNOWN
    | HttpResult.transportException => SecurityRisk.UNKNOWN
    | HttpResult.response status body =>
      if status = 200 then
        match body with
        | BodyParse.invalidJson => SecurityRisk.UNKNOWN
        | BodyParse.json none _ => SecurityRisk.UNKNOWN
        | BodyParse.json (some violation_score) ipi =>
          let risk_level := map_violation_to_risk c violation_score
          if ipi then SecurityRisk.HIGH else risk_level
      else SecurityRisk.UNKNOWN

/-- Outcome of converting the event history inside `security_risk`: the
conversion may raise (caught by the surrounding `except`), or produce a list
of messages (kept opaque: only emptiness matters). -/
inductive ConversionOutcome
  | raised
  | messages (msgs : List Unit)
deriving DecidableEq, Repr

/-- `GraySwanAnalyzer.security_risk`, with the event-conversion and network
steps reified as arguments.  Total into `SecurityRisk`: the Python method
catches every exception and returns `UNKNOWN`. -/
def security_risk (c : GraySwanConfig) (hasApiKey : Bool)
    (conv : ConversionOutcome) (r : HttpResult) : SecurityRisk :=
  if !hasApiKey then SecurityRisk.UNKNOWN
  else
    match conv with
    | ConversionOutcome.raised => SecurityRisk.UNKNOWN
    | ConversionOutcome.messages msgs =>
      if msgs.isEmpty then SecurityRisk.UNKNOWN
      else call_grayswan_api c hasApiKey r

/-- Classifies the HTTP outcomes the error-handling claim is about: transport
failure, non-200 status, unparsable body, or a body missing `violation`. -/
def isFailureResponse : HttpResult → Bool
  | HttpResult.transportTimeout => true
  | HttpResult.transportException => true
  | HttpResult.response status body =>
    if status = 200 then
      match body with
      | BodyParse.invalidJson => true
      | BodyParse.json none _ => true
      | BodyParse.json (some _) _ => false
    else true

end GraySwan

namespace CriticMixin

/-- `openhands.sdk.agent.critic_mixin.ITERATIVE_REFINEMENT_ITERATION_KEY`. -/
def ITERATIVE_REFINEMENT_ITERATION_KEY : String :=
  "iterative_refinement_iteration"

/-- `openhands.sdk.critic.base.IterativeRefinementConfig` (floats as `ℚ`). -/
structure IterativeRefinementConfig where
  success_threshold : ℚ
  max_iterations : Nat
deriving DecidableEq, Repr

/-- The part of `CriticBase` that `_check_iterative_refinement` reads. -/
structure Critic where
  iterative_refinement : Option IterativeRefinementConfig
deriving DecidableEq, Repr

/-- `openhands.sdk.critic.result.CriticResult`: only the score is read by
`_check_iterative_refinement`. -/
structure CriticResult where
  score : ℚ
deriving DecidableEq, Repr

/-- The `agent_state` key-value map of `ConversationState`; the iterative
refinement counter is the only value the mixin touches, so values are `Nat`. -/
abbrev AgentState := List (String × Nat)

/-- `CriticBase.get_followup_prompt` (the message text itself is irrelevant to
the verified claims; the embedding records which result and iteration it was
built from). -/
def get_followup_prompt (critic_result : CriticResult) (iteration : Nat) :
    String :=
  "The task appears incomplete: iteration " ++ toString iteration ++
    ", score " ++ toString critic_result.score

/-- Result of `CriticMixin._check_iterative_refinement`: the returned pair
`(should_continue, followup_message)` together with the `agent_state` map as
it stands after the call (the Python method mutates `state.agent_state` by
reassignment). -/
structure RefinementCheck where
  should_continue : Bool
  followup : Option String
  agent_state : AgentState
deriving DecidableEq, Repr

/-- `CriticMixin._check_iterative_refinement`. -/
def check_iterative_refinement (critic : Option Critic)
    (agent_state : AgentState) (critic_result : Option CriticResult) :
    RefinementCheck :=
  match critic with
  | none => ⟨false, none, agent_state⟩
  | some c =>
    match c.iterative_refinement with
    | none => ⟨false, none, agent_state⟩
    | some config =>
      let iteration :=
        dictGetD agent_state ITERATIVE_REFINEMENT_ITERATION_KEY 0
      if iteration ≥ config.max_iterations then
        ⟨false, none, agent_state⟩
      else
        match critic_result with
        | none => ⟨false, none, agent_state⟩
        | some result =>
          if result.score ≥ config.success_threshold then
            ⟨false, none, agent_state⟩
          else
            let new_iteration := iteration + 1
            ⟨true, some (get_followup_prompt result new_iteration),
              dictInsert agent_state ITERATIVE_REFINEMENT_ITERATION_KEY
                new_iteration⟩

end CriticMixin

namespace SystemPrompt

/-- `openhands.sdk.llm.TextContent`: a text block with its prompt-caching
flag (`cache_prompt` defaults to false and is only set by
`LLM._apply_prompt_caching`, never by the event). -/
structure TextContent where
  text : String
  cache_prompt : Bool
deriving DecidableEq, Repr

/-- The `role` plus ordered content blocks of an LLM `Message`. -/
structure Message where
  role : String
  content : List TextContent
deriving DecidableEq, Repr

/-- The fields of `SystemPromptEvent` read by `to_llm_message`. -/
structure SystemPromptEvent where
  system_prompt : TextContent
  dynamic_context : Option TextContent
deriving DecidableEq, Repr

/-- `SystemPromptEvent.to_llm_message`.  (`if self.dynamic_context:` tests
truthiness; a pydantic model instance is always truthy, so it is exactly the
`none` test.) -/
def to_llm_message (e : SystemPromptEvent) : Message :=
  match e.dynamic_context with
  | some d => ⟨"system", [e.system_prompt, d]⟩
  | none => ⟨"system", [e.system_prompt]⟩

end SystemPrompt

namespace LLMRegistry

/-- The two fields of an `LLM` that `LLMRegistry` reads: its usage id and the
identity (`id(...)`) of its `Metrics` object.  Object identity is embedded as
a natural number; two LLMs share a metrics object exactly when the numbers
are equal. -/
structure LLM where
  usage_id : String
  metrics : Nat
deriving DecidableEq, Repr

/-- State of `LLMRegistry`: the `_usage_to_llm` dict, the `_metrics_ids` set
of tracked metrics identities, and an allocator bound `fresh` embedding
Python's guarantee that `id(Metrics())` (a new live object, as created by
`reset_metrics`) differs from the id of every live tracked object.  The bound
is maintained so that every tracked identity is `< fresh`; allocating `fresh`
therefore yields an identity distinct from all tracked ones. -/
structure Registry where
  usage_to_llm : List (String × LLM)
  metrics_ids : List Nat
  fresh : Nat
deriving DecidableEq, Repr

/-- A freshly constructed `LLMRegistry` (empty map, empty id set). -/
def emptyRegistry : Registry := ⟨[], [], 0⟩

/-- `LLMRegistry._ensure_independent_metrics`: if the LLM's metrics identity
is already tracked, `reset_metrics()` replaces it by a fresh object; the
(possibly new) identity is then added to `_metrics_ids`.  Returns the updated
registry state and the LLM as it stands after the call (`reset_metrics`
mutates the LLM). -/
def ensure_independent_metrics (reg : Registry) (llm : LLM) :
    Registry × LLM :=
  if llm.metrics ∈ reg.metrics_ids then
    let llm' : LLM := { llm with metrics := reg.fresh }
    (⟨reg.usage_to_llm, reg.fresh :: reg.metrics_ids, reg.fresh + 1⟩, llm')
  else
    (⟨reg.usage_to_llm, llm.metrics :: reg.metrics_ids,
      max reg.fresh (llm.metrics + 1)⟩, llm)

/-- Result of `LLMRegistry.add`: the registry state after the call, the
raised `ValueError` if any, and the usage ids of the LLMs passed to
`notify` during the call. -/
structure AddResult where
  reg : Registry
  error : Option String
  notified : List String
deriving DecidableEq, Repr

/-- `LLMRegistry.add`: raises `ValueError` (touching nothing) when the usage
id is already registered; otherwise ensures independent metrics, stores the
LLM and notifies the subscriber. -/
def add (reg : Registry) (llm : LLM) : AddResult :=
  if (reg.usage_to_llm.lookup llm.usage_id).isSome then
    ⟨reg, some "usage id already exists in registry", []⟩
  else
    let p := ensure_independent_metrics reg llm
    ⟨⟨dictInsert p.1.usage_to_llm llm.usage_id p.2, p.1.metrics_ids,
        p.1.fresh⟩,
      none, [p.2.usage_id]⟩

/-- A sequence of `add` calls starting from a registry state (a raised
`ValueError` leaves the state unchanged and the sequence continues). -/
def runAdds (reg : Registry) : List LLM → Registry
  | [] => reg
  | llm :: rest => runAdds (add reg llm).reg rest

/-- The metrics identities of all registered LLMs, in registration order. -/
def registeredMetrics (reg : Registry) : List Nat :=
  reg.usage_to_llm.map (fun p => p.2.metrics)

/-- Well-formedness of a registry state: every registered LLM's metrics
identity is tracked in `_metrics_ids`, and every tracked identity is below
the allocator bound. -/
def RegWF (reg : Registry) : Prop :=
  (∀ m ∈ registeredMetrics reg, m ∈ reg.metrics_ids) ∧
    (∀ m ∈ reg.metrics_ids, m < reg.fresh)

end LLMRegistry

namespace PS1

/-- A segment of a terminal transcript: one of the two fence markers, or a
run of ordinary text (command output, interleaved garbage, JSON payload). -/
inductive Seg
  | ps1json
  | ps1end
  | chunk (s : String)
deriving DecidableEq, Repr

/-- Modelled from the spec: the raw fence matching of the terminal tool's PS1
extractor (`CmdOutputMetadata.matches_ps1_metadata` in
`openhands/tools/terminal/metadata.py`, which is not among the sources; only
its tests are).  Per the spec, the extractor matches only the LAST
`###PS1JSON###` marker preceding each `###PS1END###` (negative-lookahead
semantics), so that an earlier marker interleaved with garbage is discarded.
The scan keeps the text accumulated since the most recent `###PS1JSON###`
marker (each new marker resets it) and emits it when `###PS1END###` arrives;
a `###PS1END###` with no pending marker matches nothing, and text outside any
pending block is ignored. -/
def extractRawBlocks : List Seg → Option String → List String
  | [], _ => []
  | Seg.ps1json :: rest, _ => extractRawBlocks rest (some "")
  | Seg.chunk _ :: rest, none => extractRawBlocks rest none
  | Seg.chunk s :: rest, some acc => extractRawBlocks rest (some (acc ++ s))
  | Seg.ps1end :: rest, none => extractRawBlocks rest none
  | Seg.ps1end :: rest, some acc => acc :: extractRawBlocks rest none

/-- Modelled from the spec: `CmdOutputMetadata.matches_ps1_metadata` keeps
only the raw blocks whose content parses as JSON — a block with malformed
JSON between the markers is skipped silently (no match, no error).  JSON
validity of a payload is abstracted into the decidable predicate
`validJson`. -/
def matches_ps1_metadata (validJson : String → Bool) (transcript : List Seg) :
    List String :=
  (extractRawBlocks transcript none).filter validJson

end PS1

namespace RemotePolling

/-- A `BashOutput` event as delivered by the agent server's event-search
endpoint: id, per-command order, stdout chunk and optional exit code. -/
structure BashOutputEvent where
  id : String
  order : Nat
  stdout : String
  exit_code : Option Int
deriving DecidableEq, Repr

/-- Client-side polling state: the order of the last event processed (the
value sent as the `order__gt` filter of the next poll) and the accumulated
stdout. -/
structure PollState where
  last_order : Option Nat
  stdout : String
deriving DecidableEq, Repr

/-- Modelled from the spec: processing of one delivered `BashOutput` event by
`RemoteWorkspaceMixin._execute_command_generator` (not among the sources;
only its tests are).  An event whose order is not strictly greater than the
last seen order is a re-delivery: the assertion fires and the command returns
an error result (exit code -1) instead of silently concatenating the chunk.
Otherwise the chunk is appended and the last seen order advances. -/
def processEvent (s : PollState) (e : BashOutputEvent) :
    Except String PollState :=
  match s.last_order with
  | some lastOrder =>
    if e.order ≤ lastOrder then
      Except.error ("Duplicate event received: " ++ e.id)
    else
      Except.ok ⟨some e.order, s.stdout ++ e.stdout⟩
  | none => Except.ok ⟨some e.order, s.stdout ++ e.stdout⟩

/-- Processing of the events of one poll response, in delivery order. -/
def processPoll (s : PollState) : List BashOutputEvent →
    Except String PollState
  | [] => Except.ok s
  | e :: rest =>
    match processEvent s e with
    | Except.error msg => Except.error msg
    | Except.ok s' => processPoll s' rest

/-- Modelled from the spec: the polling loop of the remote workspace client.
`polls` is the sequence of poll responses the server delivers.  For every
poll request the client records the `order__gt` filter it sends — the last
seen order (no filter on the first request).  The loop stops early when the
duplicate-event assertion fires; the error message is surfaced as the
command's stderr. -/
def runPolls (s : PollState) : List (List BashOutputEvent) →
    List (Option Nat) × Except String String
  | [] => ([], Except.ok s.stdout)
  | poll :: rest =>
    match processPoll s poll with
    | Except.error msg => ([s.last_order], Except.error msg)
    | Except.ok s' =>
      let r := runPolls s' rest
      (s.last_order :: r.1, r.2)

/-- The initial polling state of a freshly started command. -/
def initState : PollState := ⟨none, ""⟩

/-- The orders of `events` strictly ascend, each strictly above the optional
lower bound (the last order seen so far). -/
def ordersAbove : Option Nat → List BashOutputEvent → Prop
  | _, [] => True
  | none, e :: rest => ordersAbove (some e.order) rest
  | some lo, e :: rest => lo < e.order ∧ ordersAbove (some e.order) rest

/-- Orders of the delivered events are strictly increasing across the whole
polling sequence: no event is re-delivered. -/
def StrictlyOrdered (events : List BashOutputEvent) : Prop :=
  ordersAbove none events

/-- The last order seen after processing `events` on top of the previous
last-seen order `lo` (the order of the last event, or `lo` when there is
none). -/
def lastSeen : Option Nat → List BashOutputEvent → Option Nat
  | lo, [] => lo
  | _, e :: rest => lastSeen (some e.order) rest

/-- Concatenation of the stdout chunks of `events`, in order. -/
def concatStdout : List BashOutputEvent → String
  | [] => ""
  | e :: rest => e.stdout ++ concatStdout rest

end RemotePolling

namespace McpSchema

/-- A JSON-schema node as rendered for MCP: a primitive `{"type": ty}`
fragment, an array with an item schema, an object with named properties and
a required list, or an unresolved `$ref` into the schema's `$defs` table. -/
inductive JsonNode
  | prim (ty : String)
  | array (items : JsonNode)
  | object (props : List (String × JsonNode)) (required : List String)
  | ref (name : String)
deriving Repr

/-- The bare `{"type": "object"}` placeholder substituted for a circular
reference. -/
def placeholder : JsonNode := JsonNode.prim "object"

/-- Number of `$defs` entries whose name has not yet been visited; the
well-founded measure for reference expansion. -/
def unvisited (defs : List (String × JsonNode)) (visited : List String) :
    Nat :=
  ((defs.map Prod.fst).filter (fun n => decide (n ∉ visited))).length

theorem mem_keys_of_lookup {defs : List (String × JsonNode)} {name : String}
    {body : JsonNode} (h : defs.lookup name = some body) :
    name ∈ defs.map Prod.fst := by
  induction defs with
  | nil => cases h
  | cons p t ih =>
    obtain ⟨k, v⟩ := p
    by_cases hk : name = k
    · simpa using Or.inl hk
    · have hb : (name == k) = false := beq_false_of_ne hk
      simp only [List.lookup, hb] at h
      simpa using Or.inr (ih h)

theorem unvisited_cons_lt {defs : List (String × JsonNode)}
    {visited : List String} {name : String}
    (hmem : name ∈ defs.map Prod.fst) (hnot : name ∉ visited) :
    unvisited defs (name :: visited) < unvisited defs visited := by
  unfold unvisited
  generalize defs.map Prod.fst = l at hmem
  induction l with
  | nil => cases hmem
  | cons a t ih =>
    have hmono : ∀ n : String,
        (fun m => decide (m ∉ name :: visited)) n = true →
        (fun m => decide (m ∉ visited)) n = true := by
      intro n hn
      simp only [decide_eq_true_eq, List.mem_cons, not_or] at hn ⊢
      exact hn.2
    by_cases ha : a = name
    · subst ha
      rw [List.filter_cons_of_neg (by simp), List.filter_cons_of_pos
        (by simpa using hnot)]
      have hle := List.Sublist.length_le (List.monotone_filter_right t hmono)
      simpa using Nat.lt_succ_of_le hle
    · have hmem' : name ∈ t := by
        rcases List.mem_cons.mp hmem with h | h
        · exact absurd h.symm ha
        · exact h
      by_cases hav : a ∈ visited
      · rw [List.filter_cons_of_neg (by simp [hav]),
          List.filter_cons_of_neg (by simp [hav])]
        exact ih hmem'
      · rw [List.filter_cons_of_pos (by simp [hav, ha]),
          List.filter_cons_of_pos (by simp [hav])]
        simpa using ih hmem'

mutual
/-- Modelled from the spec: `_process_schema_node` in
`openhands/sdk/tool/schema.py` (not among the sources; only its tests are).
It walks a node of the pydantic-generated JSON schema, resolving `$ref`
occurrences against the `$defs` table while tracking the set of definition
names on the current expansion path; a `$ref` to a name already on the path
is circular and is short-circuited by the bare `{"type": "object"}`
placeholder instead of being expanded, so the walk never recurses forever.
A `$ref` to an unknown name also yields the placeholder. -/
def processSchemaNode (defs : List (String × JsonNode))
    (visited : List String) (node : JsonNode) : JsonNode :=
  match node with
  | JsonNode.prim ty => JsonNode.prim ty
  | JsonNode.array items =>
      JsonNode.array (processSchemaNode defs visited items)
  | JsonNode.object props required =>
      JsonNode.object (processSchemaProps defs visited props) required
  | JsonNode.ref name =>
      if h : name ∈ visited then placeholder
      else
        match h2 : defs.lookup name with
        | some body => processSchemaNode defs (name :: visited) body
        | none => placeholder
termination_by (unvisited defs visited, sizeOf node)
decreasing_by
  · exact Prod.Lex.right _ (by simp)
  · exact Prod.Lex.right _ (by simp; omega)
  · exact Prod.Lex.left _ _ (unvisited_cons_lt (mem_keys_of_lookup h2) h)

/-- The property-wise walk of an object node's properties. -/
def processSchemaProps (defs : List (String × JsonNode))
    (visited : List String) (props : List (String × JsonNode)) :
    List (String × JsonNode) :=
  match props with
  | [] => []
  | (k, v) :: rest =>
      (k, processSchemaNode defs visited v) ::
        processSchemaProps defs visited rest
termination_by (unvisited defs visited, sizeOf props)
decreasing_by
  · exact Prod.Lex.right _ (by simp; omega)
  · exact Prod.Lex.right _ (by simp)
end

/-- Modelled from the spec: `Schema.to_mcp_schema` renders the action type's
JSON schema (root node plus its `$defs` table), resolving references as
above, and omits the internal polymorphic-deserialization discriminator
field `kind` from the `properties` map and the `required` list. -/
def to_mcp_schema (defs : List (String × JsonNode)) (root : JsonNode) :
    JsonNode :=
  match processSchemaNode defs [] root with
  | JsonNode.object props required =>
      JsonNode.object (props.filter (fun p => p.1 != "kind"))
        (required.filter (fun r => r != "kind"))
  | other => other

mutual
/-- No `$ref` node remains anywhere in the rendered schema (it is plain,
JSON-serializable data). -/
def refFree (node : JsonNode) : Bool :=
  match node with
  | JsonNode.prim _ => true
  | JsonNode.array items => refFree items
  | JsonNode.object props _ => propsRefFree props
  | JsonNode.ref _ => false

/-- `refFree` over an object's property list. -/
def propsRefFree (props : List (String × JsonNode)) : Bool :=
  match props with
  | [] => true
  | (_, v) :: rest => refFree v && propsRefFree rest
end

end McpSchema

namespace Autosave

/-- The fields of `ConversationState` that the autosave contract is about:
the `agent_state` map, the autosave flag, and the log of durable file writes
performed so far (each entry one written file). -/
structure ConversationState where
  agent_state : List (String × String)
  autosave_enabled : Bool
  writes : List String
deriving DecidableEq, Repr

/-- Modelled from the spec: `ConversationState._save_base_state` (the state
module is not among the sources; only its tests are) performs one durable
write of `base_state.json` via temp file + atomic rename. -/
def save_base_state (s : ConversationState) : ConversationState :=
  { s with writes := s.writes ++ ["base_state.json"] }

/-- Modelled from the spec: reassigning the field
(`state.agent_state = m`) goes through the attribute-assignment hook, which
replaces the map and triggers the durable save when autosave is enabled —
the autosave trigger contract. -/
def reassign_agent_state (s : ConversationState)
    (m : List (String × String)) : ConversationState :=
  let s' := { s with agent_state := m }
  if s.autosave_enabled then save_base_state s' else s'

/-- Modelled from the spec: an in-place mutation
(`state.agent_state[k] = v`) changes the map in memory without passing
through the assignment hook, so no save is performed. -/
def inplace_set_agent_state (s : ConversationState) (k v : String) :
    ConversationState :=
  { s with agent_state := dictInsert s.agent_state k v }

end Autosave

/-- C4: the GraySwan analyzer maps a violation score in `[0,1]` through its
two configurable thresholds: a score at most `low_threshold` yields `LOW`, a
score above `low_threshold` and at most `medium_threshold` yields `MEDIUM`,
and a score above `medium_threshold` yields `HIGH`; a truthy `ipi` flag in
the API response forces `HIGH` regardless of the score; and constructing an
analyzer whose `low_threshold` is not strictly below `medium_threshold` is
rejected with a `ValueError`. -/
theorem grayswan_threshold_mapping (low med score : ℚ) :
    (score ≤ low →
      GraySwan.map_violation_to_risk ⟨low, med⟩ score =
        GraySwan.SecurityRisk.LOW) ∧
    (low < score → score ≤ med →
      GraySwan.map_violation_to_risk ⟨low, med⟩ score =
        GraySwan.SecurityRisk.MEDIUM) ∧
    (low < med → med < score →
      GraySwan.map_violation_to_risk ⟨low, med⟩ score =
        GraySwan.SecurityRisk.HIGH) ∧
    (GraySwan.call_grayswan_api ⟨low, med⟩ true
      (GraySwan.HttpResult.response 200
        (GraySwan.BodyParse.json (some score) true)) =
      GraySwan.SecurityRisk.HIGH) ∧
    (med ≤ low →
      ∃ e, GraySwan.validate_thresholds ⟨low, med⟩ = Except.error e) ∧
    (low < med →
      GraySwan.validate_thresholds ⟨low, med⟩ = Except.ok ⟨low, med⟩) := by
  refine ⟨?_, ?_, ?_, ?_, ?_, ?_⟩
  · intro h
    simp [GraySwan.map_violation_to_risk, h]
  · intro h1 h2
    simp [GraySwan.map_violation_to_risk, not_le.mpr h1, h2]
  · intro hlm h
    simp [GraySwan.map_violation_to_risk, not_le.mpr h,
      not_le.mpr (lt_trans hlm h)]
  · simp [GraySwan.call_grayswan_api]
  · intro h
    exact ⟨"low_threshold must be less than medium_threshold",
      by simp [GraySwan.validate_thresholds, h]⟩
  · intro h
    simp [GraySwan.validate_thresholds, not_le.mpr h]

/-- Witness for C4 at the default thresholds 0.3 / 0.7 and concrete scores
(0.2 → LOW, 0.5 → MEDIUM, 0.9 → HIGH, ipi forces HIGH, inverted thresholds
rejected, valid thresholds accepted). -/
theorem grayswan_threshold_mapping_witness :
    GraySwan.map_violation_to_risk ⟨3/10, 7/10⟩ (2/10) =
      GraySwan.SecurityRisk.LOW ∧
    GraySwan.map_violation_to_risk ⟨3/10, 7/10⟩ (5/10) =
      GraySwan.SecurityRisk.MEDIUM ∧
    GraySwan.map_violation_to_risk ⟨3/10, 7/10⟩ (9/10) =
      GraySwan.SecurityRisk.HIGH ∧
    GraySwan.call_grayswan_api ⟨3/10, 7/10⟩ true
      (GraySwan.HttpResult.response 200
        (GraySwan.BodyParse.json (some (2/10)) true)) =
      GraySwan.SecurityRisk.HIGH ∧
    (∃ e, GraySwan.validate_thresholds ⟨7/10, 3/10⟩ = Except.error e) ∧
    GraySwan.validate_thresholds ⟨3/10, 7/10⟩ =
      Except.ok ⟨3/10, 7/10⟩ := by
  refine ⟨?_, ?_, ?_, ?_, ?_, ?_⟩
  · exact (grayswan_threshold_mapping (3/10) (7/10) (2/10)).1 (by norm_num)
  · exact (grayswan_threshold_mapping (3/10) (7/10) (5/10)).2.1 (by norm_num)
      (by norm_num)
  · exact (grayswan_threshold_mapping (3/10) (7/10) (9/10)).2.2.1
      (by norm_num) (by norm_num)
  · exact (grayswan_threshold_mapping (3/10) (7/10) (2/10)).2.2.2.1
  · exact (grayswan_threshold_mapping (7/10) (3/10) 0).2.2.2.2.1 (by norm_num)
  · exact (grayswan_threshold_mapping (3/10) (7/10) 0).2.2.2.2.2 (by norm_num)

/-- C5: for every action analyzed by `security_risk`, any transport failure
of the HTTP call (timeout or other exception), any non-200 status code, a
response body that is not valid JSON, or a JSON body missing the `violation`
field yields `SecurityRisk.UNKNOWN`; the same holds when the event
conversion raises.  `security_risk` is embedded as a total function into
`SecurityRisk`, reflecting that the Python method catches every exception
and never raises to its caller. -/
theorem grayswan_failures_yield_unknown (c : GraySwan.GraySwanConfig)
    (hasApiKey : Bool) (conv : GraySwan.ConversionOutcome)
    (r : GraySwan.HttpResult)
    (h : GraySwan.isFailureResponse r = true ∨
      conv = GraySwan.ConversionOutcome.raised) :
    GraySwan.security_risk c hasApiKey conv r =
      GraySwan.SecurityRisk.UNKNOWN := by
  cases hasApiKey with
  | false => simp [GraySwan.security_risk]
  | true =>
    cases conv with
    | raised => simp [GraySwan.security_risk]
    | messages msgs =>
      rcases h with hf | hc
      · by_cases hm : msgs.isEmpty
        · simp [GraySwan.security_risk, hm]
        · simp only [GraySwan.security_risk, Bool.not_true, if_neg, hm]
          simp only [Bool.false_eq_true, if_false, if_neg hm]
          cases r with
          | transportTimeout => simp [GraySwan.call_grayswan_api]
          | transportException => simp [GraySwan.call_grayswan_api]
          | response status body =>
            by_cases hs : status = 200
            · subst hs
              cases body with
              | invalidJson => simp [GraySwan.call_grayswan_api]
              | json violation ipi =>
                cases violation with
                | none => simp [GraySwan.call_grayswan_api]
                | some v => simp [GraySwan.isFailureResponse] at hf
            · simp [GraySwan.call_grayswan_api, hs]
      · exact absurd hc (by simp)

/-- Witness for C5: a timeout, a 500 status, an invalid JSON body, a body
missing `violation`, and a raising conversion all yield `UNKNOWN`. -/
theorem grayswan_failures_yield_unknown_witness :
    GraySwan.security_risk ⟨3/10, 7/10⟩ true
      (GraySwan.ConversionOutcome.messages [()])
      GraySwan.HttpResult.transportTimeout =
      GraySwan.SecurityRisk.UNKNOWN ∧
    GraySwan.security_risk ⟨3/10, 7/10⟩ true
      (GraySwan.ConversionOutcome.messages [()])
      (GraySwan.HttpResult.response 500
        (GraySwan.BodyParse.json (some (1/2)) false)) =
      GraySwan.SecurityRisk.UNKNOWN ∧
    GraySwan.security_risk ⟨3/10, 7/10⟩ true
      (GraySwan.ConversionOutcome.messages [()])
      (GraySwan.HttpResult.response 200 GraySwan.BodyParse.invalidJson) =
      GraySwan.SecurityRisk.UNKNOWN ∧
    GraySwan.security_risk ⟨3/10, 7/10⟩ true
      (GraySwan.ConversionOutcome.messages [()])
      (GraySwan.HttpResult.response 200 (GraySwan.BodyParse.json none true)) =
      GraySwan.SecurityRisk.UNKNOWN ∧
    GraySwan.security_risk ⟨3/10, 7/10⟩ true
      GraySwan.ConversionOutcome.raised
      (GraySwan.HttpResult.response 200
        (GraySwan.BodyParse.json (some (1/2)) false)) =
      GraySwan.SecurityRisk.UNKNOWN := by
  refine ⟨?_, ?_, ?_, ?_, ?_⟩
  · exact grayswan_failures_yield_unknown _ _ _ _ (Or.inl rfl)
  · exact grayswan_failures_yield_unknown _ _ _ _ (Or.inl rfl)
  · exact grayswan_failures_yield_unknown _ _ _ _ (Or.inl rfl)
  · exact grayswan_failures_yield_unknown _ _ _ _ (Or.inl rfl)
  · exact grayswan_failures_yield_unknown _ _ _ _ (Or.inr rfl)

/-- C2: `_check_iterative_refinement` increments the iteration counter stored
in `agent_state` (by map reassignment) exactly when it returns
`should_continue = true`, i.e. exactly when a critic with refinement config
is present, a critic result is present, the current counter is strictly
below `max_iterations` and the score is strictly below `success_threshold`;
in every other case it returns `false` and leaves `agent_state` unchanged. -/
theorem check_iterative_refinement_spec
    (critic : Option CriticMixin.Critic)
    (agent_state : CriticMixin.AgentState)
    (critic_result : Option CriticMixin.CriticResult) :
    ((CriticMixin.check_iterative_refinement critic agent_state
        critic_result).should_continue = true ↔
      ∃ c config result, critic = some c ∧
        c.iterative_refinement = some config ∧
        critic_result = some result ∧
        dictGetD agent_state CriticMixin.ITERATIVE_REFINEMENT_ITERATION_KEY 0
          < config.max_iterations ∧
        result.score < config.success_threshold) ∧
    ((CriticMixin.check_iterative_refinement critic agent_state
        critic_result).should_continue = true →
      (CriticMixin.check_iterative_refinement critic agent_state
        critic_result).agent_state =
        dictInsert agent_state CriticMixin.ITERATIVE_REFINEMENT_ITERATION_KEY
          (dictGetD agent_state CriticMixin.ITERATIVE_REFINEMENT_ITERATION_KEY
            0 + 1)) ∧
    ((CriticMixin.check_iterative_refinement critic agent_state
        critic_result).should_continue = false →
      (CriticMixin.check_iterative_refinement critic agent_state
        critic_result).agent_state = agent_state) := by
  rcases critic with _ | c
  · simp [CriticMixin.check_iterative_refinement]
  rcases hir : c.iterative_refinement with _ | config
  · simp [CriticMixin.check_iterative_refinement, hir]
  by_cases hmax :
      dictGetD agent_state CriticMixin.ITERATIVE_REFINEMENT_ITERATION_KEY 0 ≥
        config.max_iterations
  · have hr : CriticMixin.check_iterative_refinement (some c) agent_state
        critic_result = ⟨false, none, agent_state⟩ := by
      simp [CriticMixin.check_iterative_refinement, hir, hmax]
    rw [hr]
    refine ⟨?_, by simp, fun _ => rfl⟩
    constructor
    · intro h
      exact absurd h (by simp)
    · rintro ⟨c', config', result, hc, hcfg, -, hlt, -⟩
      cases Option.some.inj hc
      rw [hir] at hcfg
      cases Option.some.inj hcfg
      omega
  · rcases critic_result with _ | result
    · have hr : CriticMixin.check_iterative_refinement (some c) agent_state
          none = ⟨false, none, agent_state⟩ := by
        simp [CriticMixin.check_iterative_refinement, hir, hmax]
      rw [hr]
      refine ⟨?_, by simp, fun _ => rfl⟩
      constructor
      · intro h
        exact absurd h (by simp)
      · rintro ⟨c', config', result, -, -, hres, -, -⟩
        cases hres
    · by_cases hscore : result.score ≥ config.success_threshold
      · have hr : CriticMixin.check_iterative_refinement (some c) agent_state
            (some result) = ⟨false, none, agent_state⟩ := by
          simp [CriticMixin.check_iterative_refinement, hir, hmax, hscore]
        rw [hr]
        refine ⟨?_, by simp, fun _ => rfl⟩
        constructor
        · intro h
          exact absurd h (by simp)
        · rintro ⟨c', config', result', hc, hcfg, hres, -, hlt⟩
          cases Option.some.inj hc
          rw [hir] at hcfg
          cases Option.some.inj hcfg
          cases Option.some.inj hres
          exact absurd hlt (not_lt.mpr hscore)
      · have hr : CriticMixin.check_iterative_refinement (some c) agent_state
            (some result) =
            ⟨true,
              some (CriticMixin.get_followup_prompt result
                (dictGetD agent_state
                  CriticMixin.ITERATIVE_REFINEMENT_ITERATION_KEY 0 + 1)),
              dictInsert agent_state
                CriticMixin.ITERATIVE_REFINEMENT_ITERATION_KEY
                (dictGetD agent_state
                  CriticMixin.ITERATIVE_REFINEMENT_ITERATION_KEY 0 + 1)⟩ := by
          simp [CriticMixin.check_iterative_refinement, hir, hmax, hscore]
        rw [hr]
        refine ⟨?_, fun _ => rfl, by simp⟩
        constructor
        · intro _
          exact ⟨c, config, result, rfl, hir, rfl, by omega,
            lt_of_not_le hscore⟩
        · intro _
          rfl

/-- Witness for C2: with threshold 0.7 and max 3 iterations, a score of 0.5
continues and writes counter 1 into an empty `agent_state`; a score of 0.9
does not continue and leaves the map untouched. -/
theorem check_iterative_refinement_spec_witness :
    (CriticMixin.check_iterative_refinement (some ⟨some ⟨7/10, 3⟩⟩) []
      (some ⟨1/2⟩)).should_continue = true ∧
    (CriticMixin.check_iterative_refinement (some ⟨some ⟨7/10, 3⟩⟩) []
      (some ⟨1/2⟩)).agent_state =
      [(CriticMixin.ITERATIVE_REFINEMENT_ITERATION_KEY, 1)] ∧
    (CriticMixin.check_iterative_refinement (some ⟨some ⟨7/10, 3⟩⟩)
      [("other", 5)] (some ⟨9/10⟩)).should_continue = false ∧
    (CriticMixin.check_iterative_refinement (some ⟨some ⟨7/10, 3⟩⟩)
      [("other", 5)] (some ⟨9/10⟩)).agent_state = [("other", 5)] := by
  have h1 := check_iterative_refinement_spec (some ⟨some ⟨7/10, 3⟩⟩) []
    (some ⟨1/2⟩)
  have h2 := check_iterative_refinement_spec (some ⟨some ⟨7/10, 3⟩⟩)
    [("other", 5)] (some ⟨9/10⟩)
  have hc : (CriticMixin.check_iterative_refinement (some ⟨some ⟨7/10, 3⟩⟩) []
      (some ⟨1/2⟩)).should_continue = true :=
    h1.1.mpr ⟨⟨some ⟨7/10, 3⟩⟩, ⟨7/10, 3⟩, ⟨1/2⟩, rfl, rfl, rfl,
      by simp [dictGetD, List.lookup], by norm_num⟩
  have hns : (CriticMixin.check_iterative_refinement (some ⟨some ⟨7/10, 3⟩⟩)
      [("other", 5)] (some ⟨9/10⟩)).should_continue = false := by
    rw [Bool.eq_false_iff]
    intro h
    obtain ⟨c', cfg', r', hc', hcfg', hres', hlt', hsc'⟩ := h2.1.mp h
    obtain rfl := Option.some.inj hc'
    obtain rfl := Option.some.inj hcfg'
    obtain rfl := Option.some.inj hres'
    norm_num at hsc'
  refine ⟨hc, ?_, hns, h2.2.2 hns⟩
  have := h1.2.1 hc
  rw [this]
  simp [dictInsert, dictGetD, List.lookup]

/-- C6: `SystemPromptEvent.to_llm_message` returns exactly one system-role
message; with no dynamic context the message holds exactly one content block
(the static prompt), and with dynamic context exactly two blocks in the
order static prompt then dynamic context; the blocks are passed through
unchanged, so the event itself applies no cache marker — in particular a
dynamic block that is not cache-marked stays unmarked. -/
theorem to_llm_message_spec (e : SystemPrompt.SystemPromptEvent) :
    (SystemPrompt.to_llm_message e).role = "system" ∧
    (e.dynamic_context = none →
      (SystemPrompt.to_llm_message e).content = [e.system_prompt]) ∧
    (∀ d, e.dynamic_context = some d →
      (SystemPrompt.to_llm_message e).content = [e.system_prompt, d]) ∧
    (∀ d, e.dynamic_context = some d → d.cache_prompt = false →
      ∀ b ∈ ((SystemPrompt.to_llm_message e).content.drop 1),
        b.cache_prompt = false) := by
  obtain ⟨sp, dyn⟩ := e
  cases dyn with
  | none =>
    refine ⟨rfl, fun _ => rfl, ?_, ?_⟩
    · intro d hd
      cases hd
    · intro d hd
      cases hd
  | some d0 =>
    refine ⟨rfl, ?_, ?_, ?_⟩
    · intro h
      cases h
    · intro d hd
      obtain rfl := Option.some.inj hd
      rfl
    · intro d hd hcp b hb
      obtain rfl := Option.some.inj hd
      simp [SystemPrompt.to_llm_message] at hb
      rw [hb]
      exact hcp

/-- Witness for C6 on a concrete event with and without dynamic context. -/
theorem to_llm_message_spec_witness :
    (SystemPrompt.to_llm_message ⟨⟨"static", false⟩, none⟩).role = "system" ∧
    (SystemPrompt.to_llm_message ⟨⟨"static", false⟩, none⟩).content =
      [⟨"static", false⟩] ∧
    (SystemPrompt.to_llm_message
      ⟨⟨"static", false⟩, some ⟨"dynamic", false⟩⟩).content =
      [⟨"static", false⟩, ⟨"dynamic", false⟩] ∧
    (∀ b ∈ ((SystemPrompt.to_llm_message
        ⟨⟨"static", false⟩, some ⟨"dynamic", false⟩⟩).content.drop 1),
      b.cache_prompt = false) := by
  refine ⟨(to_llm_message_spec ⟨⟨"static", false⟩, none⟩).1,
    (to_llm_message_spec ⟨⟨"static", false⟩, none⟩).2.1 rfl,
    (to_llm_message_spec ⟨⟨"static", false⟩, some ⟨"dynamic", false⟩⟩).2.2.1
      ⟨"dynamic", false⟩ rfl,
    (to_llm_message_spec ⟨⟨"static", false⟩, some ⟨"dynamic", false⟩⟩).2.2.2
      ⟨"dynamic", false⟩ rfl rfl⟩

/-- C10: adding an LLM whose usage id is already registered raises
`ValueError` before anything is mutated: the registry state is exactly as it
was (the usage-id map, the tracked metrics identities and the previously
registered instance included) and no subscriber notification is emitted. -/
theorem llm_registry_add_duplicate (reg : LLMRegistry.Registry)
    (llm existing : LLMRegistry.LLM)
    (h : reg.usage_to_llm.lookup llm.usage_id = some existing) :
    (LLMRegistry.add reg llm).reg = reg ∧
    (∃ msg, (LLMRegistry.add reg llm).error = some msg) ∧
    (LLMRegistry.add reg llm).notified = [] ∧
    (LLMRegistry.add reg llm).reg.usage_to_llm.lookup llm.usage_id =
      some existing := by
  have hs : (reg.usage_to_llm.lookup llm.usage_id).isSome = true := by
    rw [h]
    rfl
  refine ⟨by simp [LLMRegistry.add, hs],
    ⟨"usage id already exists in registry", by simp [LLMRegistry.add, hs]⟩,
    by simp [LLMRegistry.add, hs], by simp [LLMRegistry.add, hs, h]⟩

/-- Witness for C10 on a one-entry registry and a clashing usage id. -/
theorem llm_registry_add_duplicate_witness :
    (LLMRegistry.add ⟨[("agent", ⟨"agent", 0⟩)], [0], 1⟩ ⟨"agent", 5⟩).reg =
      ⟨[("agent", ⟨"agent", 0⟩)], [0], 1⟩ ∧
    (∃ msg, (LLMRegistry.add ⟨[("agent", ⟨"agent", 0⟩)], [0], 1⟩
      ⟨"agent", 5⟩).error = some msg) ∧
    (LLMRegistry.add ⟨[("agent", ⟨"agent", 0⟩)], [0], 1⟩
      ⟨"agent", 5⟩).notified = [] ∧
    (LLMRegistry.add ⟨[("agent", ⟨"agent", 0⟩)], [0], 1⟩
      ⟨"agent", 5⟩).reg.usage_to_llm.lookup "agent" = some ⟨"agent", 0⟩ :=
  llm_registry_add_duplicate ⟨[("agent", ⟨"agent", 0⟩)], [0], 1⟩ ⟨"agent", 5⟩
    ⟨"agent", 0⟩ rfl

theorem add_preserves_wf (reg : LLMRegistry.Registry)
    (llm : LLMRegistry.LLM) (hwf : LLMRegistry.RegWF reg)
    (hnd : (LLMRegistry.registeredMetrics reg).Nodup) :
    LLMRegistry.RegWF (LLMRegistry.add reg llm).reg ∧
      (LLMRegistry.registeredMetrics (LLMRegistry.add reg llm).reg).Nodup := by
  obtain ⟨hw1, hw2⟩ := hwf
  by_cases hdup : (reg.usage_to_llm.lookup llm.usage_id).isSome
  · have he : (LLMRegistry.add reg llm).reg = reg := by
      simp [LLMRegistry.add, hdup]
    rw [he]
    exact ⟨⟨hw1, hw2⟩, hnd⟩
  · rw [Bool.not_eq_true] at hdup
    by_cases hm : llm.metrics ∈ reg.metrics_ids
    · have hadd : (LLMRegistry.add reg llm).reg =
          ⟨reg.usage_to_llm ++ [(llm.usage_id, ⟨llm.usage_id, reg.fresh⟩)],
            reg.fresh :: reg.metrics_ids, reg.fresh + 1⟩ := by
        simp [LLMRegistry.add, hdup, LLMRegistry.ensure_independent_metrics,
          hm, dictInsert]
      rw [hadd]
      have hfreshreg : reg.fresh ∉ LLMRegistry.registeredMetrics reg := by
        intro hmem
        exact absurd (hw2 _ (hw1 _ hmem)) (lt_irrefl _)
      refine ⟨⟨?_, ?_⟩, ?_⟩
      · intro m hmem
        simp only [LLMRegistry.registeredMetrics, List.map_append,
          List.map_cons, List.map_nil, List.mem_append, List.mem_cons,
          List.not_mem_nil, or_false] at hmem
        rcases hmem with hmem | rfl
        · exact List.mem_cons_of_mem _ (hw1 _ hmem)
        · exact List.mem_cons_self _ _
      · intro m hmem
        rcases List.mem_cons.mp hmem with rfl | hmem
        · exact Nat.lt_succ_self _
        · exact lt_trans (hw2 _ hmem) (Nat.lt_succ_self _)
      · simp only [LLMRegistry.registeredMetrics, List.map_append,
          List.map_cons, List.map_nil]
        rw [List.nodup_append]
        refine ⟨hnd, List.nodup_singleton _, ?_⟩
        intro a ha hb
        rw [List.mem_singleton] at hb
        subst hb
        exact hfreshreg ha
    · have hadd : (LLMRegistry.add reg llm).reg =
          ⟨reg.usage_to_llm ++ [(llm.usage_id, llm)],
            llm.metrics :: reg.metrics_ids,
            max reg.fresh (llm.metrics + 1)⟩ := by
        simp [LLMRegistry.add, hdup, LLMRegistry.ensure_independent_metrics,
          hm, dictInsert]
      rw [hadd]
      have hxreg : llm.metrics ∉ LLMRegistry.registeredMetrics reg := by
        intro hmem
        exact hm (hw1 _ hmem)
      refine ⟨⟨?_, ?_⟩, ?_⟩
      · intro m hmem
        simp only [LLMRegistry.registeredMetrics, List.map_append,
          List.map_cons, List.map_nil, List.mem_append, List.mem_cons,
          List.not_mem_nil, or_false] at hmem
        rcases hmem with hmem | rfl
        · exact List.mem_cons_of_mem _ (hw1 _ hmem)
        · exact List.mem_cons_self _ _
      · intro m hmem
        rcases List.mem_cons.mp hmem with rfl | hmem
        · exact lt_of_lt_of_le (Nat.lt_succ_self _) (le_max_right _ _)
        · exact lt_of_lt_of_le (hw2 _ hmem) (le_max_left _ _)
      · simp only [LLMRegistry.registeredMetrics, List.map_append,
          List.map_cons, List.map_nil]
        rw [List.nodup_append]
        refine ⟨hnd, List.nodup_singleton _, ?_⟩
        intro a ha hb
        rw [List.mem_singleton] at hb
        subst hb
        exact hxreg ha

theorem runAdds_wf (llms : List LLMRegistry.LLM) :
    ∀ reg : LLMRegistry.Registry, LLMRegistry.RegWF reg →
      (LLMRegistry.registeredMetrics reg).Nodup →
      LLMRegistry.RegWF (LLMRegistry.runAdds reg llms) ∧
        (LLMRegistry.registeredMetrics (LLMRegistry.runAdds reg llms)).Nodup := by
  induction llms with
  | nil =>
    intro reg hwf hnd
    exact ⟨hwf, hnd⟩
  | cons llm rest ih =>
    intro reg hwf hnd
    have h := add_preserves_wf reg llm hwf hnd
    exact ih _ h.1 h.2

/-- C8: the registry preserves pairwise-distinct metrics objects: for every
sequence of `add` calls from a fresh registry, the registered LLMs' metrics
identities are pairwise distinct; and whenever the added LLM's metrics
object is identical (by object identity) to one already tracked, the stored
instance carries a freshly created metrics object — one whose identity is
not among the previously tracked ones. -/
theorem llm_registry_independent_metrics :
    (∀ llms : List LLMRegistry.LLM,
      (LLMRegistry.registeredMetrics
        (LLMRegistry.runAdds LLMRegistry.emptyRegistry llms)).Nodup) ∧
    (∀ (reg : LLMRegistry.Registry) (llm : LLMRegistry.LLM),
      LLMRegistry.RegWF reg →
      (reg.usage_to_llm.lookup llm.usage_id).isSome = false →
      llm.metrics ∈ reg.metrics_ids →
      (LLMRegistry.add reg llm).error = none ∧
      (LLMRegistry.add reg llm).reg.usage_to_llm.getLast? =
        some (llm.usage_id, ⟨llm.usage_id, reg.fresh⟩) ∧
      reg.fresh ∉ reg.metrics_ids) := by
  constructor
  · intro llms
    have hwf0 : LLMRegistry.RegWF LLMRegistry.emptyRegistry := by
      constructor
      · intro m hm
        simp [LLMRegistry.registeredMetrics, LLMRegistry.emptyRegistry] at hm
      · intro m hm
        simp [LLMRegistry.emptyRegistry] at hm
    exact (runAdds_wf llms LLMRegistry.emptyRegistry hwf0 List.nodup_nil).2
  · intro reg llm hwf hdup hm
    refine ⟨by simp [LLMRegistry.add, hdup], ?_, ?_⟩
    · have hadd : (LLMRegistry.add reg llm).reg.usage_to_llm =
          reg.usage_to_llm ++ [(llm.usage_id, ⟨llm.usage_id, reg.fresh⟩)] := by
        simp [LLMRegistry.add, hdup, LLMRegistry.ensure_independent_metrics,
          hm, dictInsert]
      rw [hadd]
      exact List.getLast?_concat _
    · intro hmem
      exact absurd (hwf.2 _ hmem) (lt_irrefl _)

/-- Witness for C8: two LLMs sharing metrics identity 0 end up with distinct
metrics after registration; the shared-metrics reset stores a fresh id. -/
theorem llm_registry_independent_metrics_witness :
    (LLMRegistry.registeredMetrics
      (LLMRegistry.runAdds LLMRegistry.emptyRegistry
        [⟨"agent", 0⟩, ⟨"condenser", 0⟩])).Nodup ∧
    ((LLMRegistry.add ⟨[("agent", ⟨"agent", 0⟩)], [0], 1⟩
        ⟨"condenser", 0⟩).error = none ∧
      (LLMRegistry.add ⟨[("agent", ⟨"agent", 0⟩)], [0], 1⟩
        ⟨"condenser", 0⟩).reg.usage_to_llm.getLast? =
        some ("condenser", ⟨"condenser", 1⟩) ∧
      (1 : Nat) ∉ [0]) := by
  constructor
  · exact llm_registry_independent_metrics.1 [⟨"agent", 0⟩, ⟨"condenser", 0⟩]
  · refine llm_registry_independent_metrics.2 ⟨[("agent", ⟨"agent", 0⟩)], [0], 1⟩
      ⟨"condenser", 0⟩ ⟨?_, ?_⟩ rfl (by simp)
    · intro m hmem
      simp [LLMRegistry.registeredMetrics] at hmem
      simp [hmem]
    · intro m hmem
      simp at hmem
      subst hmem
      show (0 : Nat) < 1
      omega

/-- C1: on a transcript with two `###PS1JSON###` markers before a single
`###PS1END###` — the text after the first marker corrupted by interleaved
output, the block after the second marker valid JSON — the extractor returns
exactly one metadata block, the last `###PS1JSON###` block preceding the
`###PS1END###` (negative-lookahead matching); the result is independent of
the corrupted text, and a block whose content is not valid JSON is skipped
silently (no match, no error). -/
theorem ps1_last_block_recovery (validJson : String → Bool)
    (t0 g c t1 : String) :
    (validJson c = true →
      PS1.matches_ps1_metadata validJson
        [PS1.Seg.chunk t0, PS1.Seg.ps1json, PS1.Seg.chunk g, PS1.Seg.ps1json,
          PS1.Seg.chunk c, PS1.Seg.ps1end, PS1.Seg.chunk t1] = [c]) ∧
    (validJson c = false →
      PS1.matches_ps1_metadata validJson
        [PS1.Seg.chunk t0, PS1.Seg.ps1json, PS1.Seg.chunk g, PS1.Seg.ps1json,
          PS1.Seg.chunk c, PS1.Seg.ps1end, PS1.Seg.chunk t1] = []) := by
  have hblocks : PS1.extractRawBlocks
      [PS1.Seg.chunk t0, PS1.Seg.ps1json, PS1.Seg.chunk g, PS1.Seg.ps1json,
        PS1.Seg.chunk c, PS1.Seg.ps1end, PS1.Seg.chunk t1] none = [c] := by
    simp [PS1.extractRawBlocks]
  constructor <;> intro h <;>
    simp [PS1.matches_ps1_metadata, hblocks, List.filter, h]

/-- Witness for C1 on a concrete transcript (validity predicate: the block
equals the intact JSON payload): the corrupted first block contributes
nothing, the intact second block is returned; an invalid second block is
skipped. -/
theorem ps1_last_block_recovery_witness :
    PS1.matches_ps1_metadata (fun s => s == "intact")
      [PS1.Seg.chunk "npm test", PS1.Seg.ps1json, PS1.Seg.chunk "garbage",
        PS1.Seg.ps1json, PS1.Seg.chunk "intact", PS1.Seg.ps1end,
        PS1.Seg.chunk "done"] = ["intact"] ∧
    PS1.matches_ps1_metadata (fun s => s == "intact")
      [PS1.Seg.chunk "npm test", PS1.Seg.ps1json, PS1.Seg.chunk "garbage",
        PS1.Seg.ps1json, PS1.Seg.chunk "broken", PS1.Seg.ps1end,
        PS1.Seg.chunk "done"] = [] :=
  ⟨(ps1_last_block_recovery (fun s => s == "intact") "npm test" "garbage"
      "intact" "done").1 (by decide),
    (ps1_last_block_recovery (fun s => s == "intact") "npm test" "garbage"
      "broken" "done").2 (by decide)⟩

theorem refFree_processSchemaNode (defs : List (String × McpSchema.JsonNode))
    (visited : List String) (node : McpSchema.JsonNode) :
    McpSchema.refFree (McpSchema.processSchemaNode defs visited node) = true := by
  refine McpSchema.processSchemaNode.induct defs
    (fun v n => McpSchema.refFree (McpSchema.processSchemaNode defs v n) = true)
    (fun v ps =>
      McpSchema.propsRefFree (McpSchema.processSchemaProps defs v ps) = true)
    ?_ ?_ ?_ ?_ ?_ ?_ ?_ ?_ visited node
  · intro v a
    simp [McpSchema.processSchemaNode, McpSchema.refFree]
  · intro v a ih
    simp [McpSchema.processSchemaNode, McpSchema.refFree, ih]
  · intro v props req ih
    simp [McpSchema.processSchemaNode, McpSchema.refFree, ih]
  · intro v a ha
    simp [McpSchema.processSchemaNode, ha, McpSchema.placeholder,
      McpSchema.refFree]
  · intro v a ha body hlook ih
    simp only [McpSchema.processSchemaNode]
    rw [dif_neg ha]
    split
    · rename_i body2 h2
      rw [hlook] at h2
      obtain rfl := Option.some.inj h2
      exact ih
    · rename_i h2
      rw [hlook] at h2
      cases h2
  · intro v a ha hlook
    simp only [McpSchema.processSchemaNode]
    rw [dif_neg ha]
    split
    · rename_i body2 h2
      rw [hlook] at h2
      cases h2
    · simp [McpSchema.placeholder, McpSchema.refFree]
  · intro v
    simp [McpSchema.processSchemaProps, McpSchema.propsRefFree]
  · intro v k val rest ih1 ih2
    simp [McpSchema.processSchemaProps, McpSchema.propsRefFree, ih1, ih2]

theorem propsRefFree_filter (props : List (String × McpSchema.JsonNode))
    (q : String × McpSchema.JsonNode → Bool)
    (h : McpSchema.propsRefFree props = true) :
    McpSchema.propsRefFree (props.filter q) = true := by
  induction props with
  | nil => simpa using h
  | cons p rest ih =>
    obtain ⟨k, v⟩ := p
    rw [McpSchema.propsRefFree] at h
    rw [Bool.and_eq_true] at h
    by_cases hq : q (k, v)
    · rw [List.filter_cons_of_pos hq, McpSchema.propsRefFree,
        Bool.and_eq_true]
      exact ⟨h.1, ih h.2⟩
    · rw [List.filter_cons_of_neg hq]
      exact ih h.2

theorem kind_not_mem_filtered_props
    (props : List (String × McpSchema.JsonNode)) :
    "kind" ∉ (props.filter (fun p => p.1 != "kind")).map Prod.fst := by
  intro hmem
  rcases List.mem_map.mp hmem with ⟨p, hp, hfst⟩
  rcases List.mem_filter.mp hp with ⟨-, hq⟩
  rw [hfst] at hq
  simp at hq

theorem kind_not_mem_filtered_required (required : List String) :
    "kind" ∉ required.filter (fun r => r != "kind") := by
  intro hmem
  rcases List.mem_filter.mp hmem with ⟨-, hq⟩
  simp at hq

/-- C7: the MCP schema renderer terminates on every action schema, including
self-referential ones (the walk is a total function, so no `RecursionError`
can occur): every cyclic `$ref` occurrence is replaced by the bare
`{"type": "object"}` placeholder instead of being expanded, every other
`$ref` is resolved (no `$ref` remains in the output, which is therefore
plain JSON-serializable data), and the internal discriminator field `kind`
is omitted from the `properties` and `required` lists. -/
theorem to_mcp_schema_spec :
    (∀ (defs : List (String × McpSchema.JsonNode))
      (root : McpSchema.JsonNode),
      McpSchema.refFree (McpSchema.to_mcp_schema defs root) = true) ∧
    (∀ (defs : List (String × McpSchema.JsonNode)) (visited : List String)
      (name : String), name ∈ visited →
      McpSchema.processSchemaNode defs visited
        (McpSchema.JsonNode.ref name) = McpSchema.placeholder) ∧
    (∀ (defs : List (String × McpSchema.JsonNode))
      (root : McpSchema.JsonNode)
      (props : List (String × McpSchema.JsonNode)) (required : List String),
      McpSchema.to_mcp_schema defs root =
        McpSchema.JsonNode.object props required →
      "kind" ∉ props.map Prod.fst ∧ "kind" ∉ required) := by
  refine ⟨?_, ?_, ?_⟩
  · intro defs root
    have hp := refFree_processSchemaNode defs [] root
    rw [McpSchema.to_mcp_schema]
    cases heq : McpSchema.processSchemaNode defs [] root with
    | object props required =>
      rw [heq] at hp
      rw [McpSchema.refFree] at hp ⊢
      exact propsRefFree_filter props _ hp
    | prim ty => rw [heq] at hp; exact hp
    | array items => rw [heq] at hp; exact hp
    | ref name => rw [heq] at hp; exact hp
  · intro defs visited name h
    simp [McpSchema.processSchemaNode, h]
  · intro defs root props required h
    rw [McpSchema.to_mcp_schema] at h
    cases heq : McpSchema.processSchemaNode defs [] root with
    | object props0 required0 =>
      rw [heq] at h
      injection h with h1 h2
      subst h1
      subst h2
      exact ⟨kind_not_mem_filtered_props props0,
        kind_not_mem_filtered_required required0⟩
    | prim ty => rw [heq] at h; cases h
    | array items => rw [heq] at h; cases h
    | ref name => rw [heq] at h; cases h

/-- Witness for C7 on a concrete self-referential schema (a tree node whose
`children` items refer back to the node's own definition): the cyclic
reference on the expansion path yields the placeholder, the rendered schema
is free of references, and `kind` is gone from the rendered properties and
required list. -/
theorem to_mcp_schema_spec_witness :
    McpSchema.processSchemaNode
      [("Node", McpSchema.JsonNode.object
        [("children", McpSchema.JsonNode.array (McpSchema.JsonNode.ref "Node"))]
        [])] ["Node"] (McpSchema.JsonNode.ref "Node") =
      McpSchema.placeholder ∧
    McpSchema.refFree (McpSchema.to_mcp_schema
      [("Node", McpSchema.JsonNode.object
        [("children", McpSchema.JsonNode.array (McpSchema.JsonNode.ref "Node"))]
        [])]
      (McpSchema.JsonNode.object
        [("kind", McpSchema.JsonNode.prim "string"),
          ("children", McpSchema.JsonNode.array (McpSchema.JsonNode.ref "Node"))]
        ["kind"])) = true ∧
    "kind" ∉ ([("children", McpSchema.JsonNode.array (McpSchema.JsonNode.object
        [("children", McpSchema.JsonNode.array (McpSchema.JsonNode.prim "object"))]
        []))].map Prod.fst) ∧
    "kind" ∉ ([] : List String) := by
  refine ⟨to_mcp_schema_spec.2.1 _ ["Node"] "Node" (by simp),
    to_mcp_schema_spec.1 _ _,
    to_mcp_schema_spec.2.2
      [("Node", McpSchema.JsonNode.object
        [("children", McpSchema.JsonNode.array (McpSchema.JsonNode.ref "Node"))]
        [])]
      (McpSchema.JsonNode.object
        [("kind", McpSchema.JsonNode.prim "string"),
          ("children", McpSchema.JsonNode.array (McpSchema.JsonNode.ref "Node"))]
        ["kind"]) _ _ ?_⟩
  simp [McpSchema.to_mcp_schema, McpSchema.processSchemaNode,
    McpSchema.processSchemaProps, McpSchema.placeholder, List.lookup,
    List.filter]

theorem lookup_append_of_none {α : Type} (m : List (String × α)) (k : String)
    (v : α) (h : m.lookup k = none) :
    (m ++ [(k, v)]).lookup k = some v := by
  induction m with
  | nil => simp [List.lookup]
  | cons p t ih =>
    obtain ⟨k1, v1⟩ := p
    by_cases hk : k = k1
    · subst hk
      simp [List.lookup] at h
    · have hb : (k == k1) = false := beq_eq_false_iff_ne.mpr hk
      simp only [List.lookup, hb, List.cons_append] at h ⊢
      exact ih h

theorem lookup_map_replace {α : Type} (m : List (String × α)) (k : String)
    (v : α) (h : (m.lookup k).isSome = true) :
    (m.map (fun p => if p.1 = k then (k, v) else p)).lookup k = some v := by
  induction m with
  | nil => simp [List.lookup] at h
  | cons p t ih =>
    obtain ⟨k1, v1⟩ := p
    by_cases hk : k1 = k
    · subst hk
      dsimp only [List.map_cons]
      rw [if_pos rfl]
      simp [List.lookup]
    · have hb : (k == k1) = false := beq_eq_false_iff_ne.mpr (Ne.symm hk)
      simp only [List.map_cons, if_neg hk]
      simp only [List.lookup, hb] at h ⊢
      exact ih h

theorem lookup_dictInsert {α : Type} (m : List (String × α)) (k : String)
    (v : α) : (dictInsert m k v).lookup k = some v := by
  rw [dictInsert]
  by_cases h : (m.lookup k).isSome
  · rw [if_pos h]
    exact lookup_map_replace m k v h
  · rw [if_neg h]
    cases hnone : m.lookup k with
    | none => exact lookup_append_of_none m k v hnone
    | some w =>
      rw [hnone] at h
      exact absurd rfl h

/-- C9: with autosave enabled, reassigning the `agent_state` field triggers
exactly one durable write of `base_state.json` (and installs the new map),
while mutating the map in place changes the in-memory value but triggers no
write at all. -/
theorem agent_state_autosave_contract (s : Autosave.ConversationState)
    (m : List (String × String)) (k v : String)
    (h : s.autosave_enabled = true) :
    (Autosave.reassign_agent_state s m).writes =
      s.writes ++ ["base_state.json"] ∧
    (Autosave.reassign_agent_state s m).agent_state = m ∧
    (Autosave.inplace_set_agent_state s k v).writes = s.writes ∧
    dictGetD (Autosave.inplace_set_agent_state s k v).agent_state k "" = v := by
  refine ⟨?_, ?_, rfl, ?_⟩
  · simp [Autosave.reassign_agent_state, h, Autosave.save_base_state]
  · simp [Autosave.reassign_agent_state, h, Autosave.save_base_state]
  · simp [Autosave.inplace_set_agent_state, dictGetD, lookup_dictInsert]

/-- Witness for C9 on a concrete state with autosave enabled. -/
theorem agent_state_autosave_contract_witness :
    (Autosave.reassign_agent_state ⟨[("pending", "x")], true, []⟩
      [("pending", "x"), ("count", "1")]).writes = ["base_state.json"] ∧
    (Autosave.reassign_agent_state ⟨[("pending", "x")], true, []⟩
      [("pending", "x"), ("count", "1")]).agent_state =
      [("pending", "x"), ("count", "1")] ∧
    (Autosave.inplace_set_agent_state ⟨[("pending", "x")], true, []⟩
      "count" "1").writes = [] ∧
    dictGetD (Autosave.inplace_set_agent_state ⟨[("pending", "x")], true, []⟩
      "count" "1").agent_state "count" "" = "1" :=
  agent_state_autosave_contract ⟨[("pending", "x")], true, []⟩
    [("pending", "x"), ("count", "1")] "count" "1" rfl

theorem lastSeen_cons (lo : Option Nat) (e : RemotePolling.BashOutputEvent)
    (rest : List RemotePolling.BashOutputEvent) :
    RemotePolling.lastSeen lo (e :: rest) =
      RemotePolling.lastSeen (some e.order) rest := rfl

theorem lastSeen_append (a b : List RemotePolling.BashOutputEvent) :
    ∀ lo : Option Nat, RemotePolling.lastSeen lo (a ++ b) =
      RemotePolling.lastSeen (RemotePolling.lastSeen lo a) b := by
  induction a with
  | nil =>
    intro lo
    rfl
  | cons e t ih =>
    intro lo
    rw [List.cons_append, lastSeen_cons, ih, lastSeen_cons]

theorem concatStdout_append (a b : List RemotePolling.BashOutputEvent) :
    RemotePolling.concatStdout (a ++ b) =
      RemotePolling.concatStdout a ++ RemotePolling.concatStdout b := by
  induction a with
  | nil => simp [RemotePolling.concatStdout]
  | cons e t ih =>
    rw [List.cons_append, RemotePolling.concatStdout,
      RemotePolling.concatStdout, ih, String.append_assoc]

theorem ordersAbove_append (a b : List RemotePolling.BashOutputEvent) :
    ∀ lo : Option Nat, RemotePolling.ordersAbove lo (a ++ b) ↔
      RemotePolling.ordersAbove lo a ∧
        RemotePolling.ordersAbove (RemotePolling.lastSeen lo a) b := by
  induction a with
  | nil =>
    intro lo
    simp [RemotePolling.ordersAbove, RemotePolling.lastSeen]
  | cons e t ih =>
    intro lo
    cases lo with
    | none =>
      rw [List.cons_append]
      show RemotePolling.ordersAbove (some e.order) (t ++ b) ↔ _
      rw [ih (some e.order), lastSeen_cons]
      rfl
    | some lo0 =>
      rw [List.cons_append]
      show lo0 < e.order ∧ RemotePolling.ordersAbove (some e.order) (t ++ b) ↔ _
      rw [ih (some e.order), lastSeen_cons]
      show _ ↔ (lo0 < e.order ∧ RemotePolling.ordersAbove (some e.order) t) ∧ _
      rw [and_assoc]

theorem processPoll_ok (poll : List RemotePolling.BashOutputEvent) :
    ∀ s : RemotePolling.PollState,
      RemotePolling.ordersAbove s.last_order poll →
      RemotePolling.processPoll s poll = Except.ok
        ⟨RemotePolling.lastSeen s.last_order poll,
          s.stdout ++ RemotePolling.concatStdout poll⟩ := by
  induction poll with
  | nil =>
    intro s hord
    simp [RemotePolling.processPoll, RemotePolling.lastSeen,
      RemotePolling.concatStdout]
  | cons e rest ih =>
    intro s hord
    have hev : RemotePolling.processEvent s e =
        Except.ok ⟨some e.order, s.stdout ++ e.stdout⟩ := by
      cases hlo : s.last_order with
      | none => simp [RemotePolling.processEvent, hlo]
      | some lo0 =>
        rw [hlo] at hord
        have hlt : lo0 < e.order := hord.1
        simp [RemotePolling.processEvent, hlo, not_le.mpr hlt]
    rw [RemotePolling.processPoll, hev]
    dsimp only
    have hord' : RemotePolling.ordersAbove (some e.order) rest := by
      cases hlo : s.last_order with
      | none => rw [hlo] at hord; exact hord
      | some lo0 => rw [hlo] at hord; exact hord.2
    rw [ih ⟨some e.order, s.stdout ++ e.stdout⟩ hord']
    rw [lastSeen_cons]
    show _ = Except.ok ⟨_, s.stdout ++
      (e.stdout ++ RemotePolling.concatStdout rest)⟩
    rw [String.append_assoc]

theorem runPolls_ok (polls : List (List RemotePolling.BashOutputEvent)) :
    ∀ s : RemotePolling.PollState,
      RemotePolling.ordersAbove s.last_order polls.flatten →
      RemotePolling.runPolls s polls =
        ((List.range polls.length).map
          (fun k => RemotePolling.lastSeen s.last_order
            ((polls.take k).flatten)),
          Except.ok (s.stdout ++ RemotePolling.concatStdout polls.flatten)) := by
  induction polls with
  | nil =>
    intro s hord
    simp [RemotePolling.runPolls, RemotePolling.concatStdout]
  | cons poll rest ih =>
    intro s hord
    rw [List.flatten_cons] at hord
    obtain ⟨h1, h2⟩ := (ordersAbove_append poll rest.flatten s.last_order).mp
      hord
    rw [RemotePolling.runPolls, processPoll_ok poll s h1]
    dsimp only
    rw [ih ⟨RemotePolling.lastSeen s.last_order poll,
      s.stdout ++ RemotePolling.concatStdout poll⟩ h2]
    rw [Prod.mk.injEq]
    constructor
    · rw [List.length_cons, List.range_succ_eq_map, List.map_cons,
        List.map_map]
      rw [List.cons.injEq]
      constructor
      · rfl
      · refine List.map_congr_left ?_
        intro k _
        show RemotePolling.lastSeen (RemotePolling.lastSeen s.last_order poll)
          ((rest.take k).flatten) = _
        show _ = RemotePolling.lastSeen s.last_order
          (((poll :: rest).take (k + 1)).flatten)
        rw [List.take_succ_cons, List.flatten_cons, lastSeen_append]
    · rw [List.flatten_cons, concatStdout_append, String.append_assoc]

/-- C3: the polling client of the remote workspace passes the last-seen
order as the `order__gt` filter of every poll request (no filter before any
event was seen); when no duplicate is delivered (orders strictly increase
across the polling sequence) the surfaced stdout is exactly the
concatenation of the distinct `BashOutput` chunks in order; and a
re-delivered event — one whose order is not above the last seen order —
makes the assertion fire: the command fails fast with a duplicate-event
error instead of silently concatenating the chunk again. -/
theorem remote_polling_spec :
    (∀ polls : List (List RemotePolling.BashOutputEvent),
      RemotePolling.StrictlyOrdered polls.flatten →
      (RemotePolling.runPolls RemotePolling.initState polls).1 =
        (List.range polls.length).map
          (fun k => RemotePolling.lastSeen none ((polls.take k).flatten)) ∧
      (RemotePolling.runPolls RemotePolling.initState polls).2 =
        Except.ok (RemotePolling.concatStdout polls.flatten)) ∧
    (∀ (p1 : List RemotePolling.BashOutputEvent)
      (e : RemotePolling.BashOutputEvent)
      (rest : List (List RemotePolling.BashOutputEvent)),
      RemotePolling.StrictlyOrdered (p1 ++ [e]) →
      (RemotePolling.runPolls RemotePolling.initState
        ((p1 ++ [e]) :: [e] :: rest)).2 =
        Except.error ("Duplicate event received: " ++ e.id)) := by
  constructor
  · intro polls hord
    have h := runPolls_ok polls RemotePolling.initState hord
    rw [h]
    refine ⟨rfl, ?_⟩
    show Except.ok ("" ++ _) = _
    rw [String.empty_append]
  · intro p1 e rest hord
    have h1 := processPoll_ok (p1 ++ [e]) RemotePolling.initState hord
    simp only [RemotePolling.initState] at h1
    have hlast : RemotePolling.lastSeen none (p1 ++ [e]) = some e.order := by
      rw [lastSeen_append]
      rfl
    rw [hlast] at h1
    rw [RemotePolling.runPolls]
    simp only [RemotePolling.initState]
    rw [h1]
    dsimp only
    rw [RemotePolling.runPolls]
    have hev : RemotePolling.processEvent
        ⟨some e.order, "" ++ RemotePolling.concatStdout (p1 ++ [e])⟩ e =
        Except.error ("Duplicate event received: " ++ e.id) := by
      simp [RemotePolling.processEvent]
    rw [RemotePolling.processPoll, hev]

/-- Witness for C3: two polls delivering chunk orders 0 then 1 use filters
`none` then `order__gt 0` and surface `CHUNK1CHUNK2`; re-delivering the
order-0 event in the second poll fails fast with the duplicate-event
error. -/
theorem remote_polling_spec_witness :
    (RemotePolling.runPolls RemotePolling.initState
      [[⟨"event-1", 0, "CHUNK1", none⟩],
        [⟨"event-2", 1, "CHUNK2", some 0⟩]]).1 = [none, some 0] ∧
    (RemotePolling.runPolls RemotePolling.initState
      [[⟨"event-1", 0, "CHUNK1", none⟩],
        [⟨"event-2", 1, "CHUNK2", some 0⟩]]).2 = Except.ok "CHUNK1CHUNK2" ∧
    (RemotePolling.runPolls RemotePolling.initState
      [[⟨"event-1", 0, "CHUNK1", none⟩],
        [⟨"event-1", 0, "CHUNK1", none⟩]]).2 =
      Except.error "Duplicate event received: event-1" := by
  have h := remote_polling_spec.1
    [[⟨"event-1", 0, "CHUNK1", none⟩], [⟨"event-2", 1, "CHUNK2", some 0⟩]]
    (by simp [RemotePolling.StrictlyOrdered, RemotePolling.ordersAbove])
  have hd := remote_polling_spec.2 [] ⟨"event-1", 0, "CHUNK1", none⟩ []
    (by simp [RemotePolling.StrictlyOrdered, RemotePolling.ordersAbove])
  exact ⟨h.1.trans rfl, h.2.trans rfl, hd.trans rfl⟩
